import Mathlib

/-!
# Verification of the `argz` command-line argument binder

Shallow embedding of `src/include/argz/argz.hpp` (namespace `argz`).

Modelling conventions:
* A C string (`const char*` contents) is a `List Char` (`CStr`); the empty
  list plays the role of the terminating `'\0'`, so `*p` on an exhausted
  pointer corresponds to matching the empty list.  A nullable `const char*`
  is `Option CStr` (`none` = `NULL`).
* `argv` is the list of tokens; `argc = tokens.length`.  Reading `argv[j]`
  for `j` out of range is modelled by `List.get?` returning `none`: for a
  `main`-style argument vector the C standard guarantees `argv[argc] == NULL`,
  which is the only out-of-range index the scanner reaches on the inputs we
  evaluate concretely.
* C++ exceptions are `Except Err`.  `std::stol`/`std::stod` throwing
  `std::invalid_argument` is `Err.MalformedNumber`; `std::out_of_range`
  is `Err.OutOfRange`; the scanner's `throw std::runtime_error("Expected '-'")`
  is `Err.ExpectedDash` and `"Invalid alias flag ..."` is `Err.UnknownAlias`.
* Writes to `std::cout` are abstracted into a list of output events
  (`OutEvent`): the help/version text formatting is peripheral (no claim
  inspects the text, only whether help/version output was emitted).
* `double` values are modelled exactly (`DVal`: a rational, infinity or NaN);
  no claim depends on floating-point rounding, only on the success/failure
  domain of `std::stod`, which the model reproduces (decimal forms, and the
  `inf`/`nan` spellings; a hex-float input `"0x..."` succeeds in both the
  model and the C++ because of its leading decimal digit `0`).  Overflow of
  `std::stod` on astronomically large decimal literals is not modelled; no
  claim touches it.
-/

set_option autoImplicit false

namespace Argz

/-- Characters of a C string. -/
abbrev CStr := List Char

/-- Error conditions raised (as C++ exceptions) by the library.
`ExpectedDash` is the scanner's `throw std::runtime_error("Expected '-'")`
(the spec calls this kind `ExpectedFlagPrefix`); `UnknownAlias` is
`throw std::runtime_error("Invalid alias flag ...")`; `MalformedNumber` and
`OutOfRange` are `std::invalid_argument` / `std::out_of_range` thrown by
`std::stol` and `std::stod`. -/
inductive Err where
  | ExpectedDash
  | UnknownAlias
  | MalformedNumber
  | OutOfRange
  deriving DecidableEq, Repr

instance instDecEqExcept {ε : Type _} {α : Type _} [DecidableEq ε] [DecidableEq α] :
    DecidableEq (Except ε α) := fun a b =>
  match a, b with
  | .ok x, .ok y =>
    if h : x = y then isTrue (by rw [h]) else isFalse (fun hc => h (Except.ok.inj hc))
  | .error x, .error y =>
    if h : x = y then isTrue (by rw [h]) else isFalse (fun hc => h (Except.error.inj hc))
  | .ok _, .error _ => isFalse (fun hc => Except.noConfusion hc)
  | .error _, .ok _ => isFalse (fun hc => Except.noConfusion hc)

/-- The string literal `"help"`. -/
def strHelp : CStr := ['h', 'e', 'l', 'p']

/-- The string literal `"version"`. -/
def strVersion : CStr := ['v', 'e', 'r', 's', 'i', 'o', 'n']

/-- The string literal `"true"`. -/
def strTrue : CStr := ['t', 'r', 'u', 'e']

/-- The string literal `"inf"`. -/
def strInf : CStr := ['i', 'n', 'f']

/-- The string literal `"nan"`. -/
def strNan : CStr := ['n', 'a', 'n']

/-- `isspace` in the "C" locale, as used by `strtol`/`strtod`. -/
def isSpaceC (c : Char) : Bool :=
  c = ' ' || c = '\t' || c = '\n' || c = '\x0b' || c = '\x0c' || c = '\r'

/-- Skip leading whitespace, as `strtol`/`strtod` do. -/
def skipWs : CStr → CStr
  | [] => []
  | c :: rest => if isSpaceC c then skipWs rest else c :: rest

/-- Consume an optional leading sign; returns (negative?, remainder). -/
def splitSign : CStr → Bool × CStr
  | [] => (false, [])
  | c :: rest =>
    if c = '-' then (true, rest)
    else if c = '+' then (false, rest)
    else (false, c :: rest)

/-- Longest prefix of decimal digits, and the remainder. -/
def takeDigits : CStr → CStr × CStr
  | [] => ([], [])
  | c :: rest =>
    if c.isDigit then
      let p := takeDigits rest
      (c :: p.1, p.2)
    else ([], c :: rest)

/-- Value of a string of decimal digits. -/
def digitsVal (ds : CStr) : Nat :=
  ds.foldl (fun acc c => 10 * acc + (c.toNat - '0'.toNat)) 0

/-- `LONG_MIN` on the LP64 reference platform (`long` is 64-bit). -/
def longMin : Int := -(2 ^ 63)

/-- `LONG_MAX` on the LP64 reference platform. -/
def longMax : Int := 2 ^ 63 - 1

/-- Model of `std::stol(s)` with the default base 10: skip whitespace, take an
optional sign and a nonempty run of decimal digits; `std::invalid_argument`
(here `MalformedNumber`) when there is no digit, `std::out_of_range` when the
value does not fit in `long`. -/
def stol (s : CStr) : Except Err Int :=
  let p := splitSign (skipWs s)
  let d := takeDigits p.2
  if d.1.isEmpty then .error .MalformedNumber
  else
    let v : Int := if p.1 then -(digitsVal d.1 : Int) else (digitsVal d.1 : Int)
    if v < longMin ∨ longMax < v then .error .OutOfRange
    else .ok v

/-- `static_cast<int32_t>` of a `long` (two's-complement wrap-around). -/
def toI32 (v : Int) : Int := (v + 2 ^ 31) % 2 ^ 32 - 2 ^ 31

/-- `static_cast<uint32_t>` of a `long` (reduction mod `2^32`). -/
def toU32 (v : Int) : Nat := (v % 2 ^ 32).toNat

/-- `static_cast<int64_t>` of a `long` (the identity on LP64). -/
def toI64 (v : Int) : Int := v

/-- `static_cast<uint64_t>` of a `long` (reduction mod `2^64`). -/
def toU64 (v : Int) : Nat := (v % 2 ^ 64).toNat

/-- The value stored in a `double` slot: an exact rational, an infinity, or
a NaN.  Exact rationals stand in for IEEE doubles; no claim depends on
rounding. -/
inductive DVal where
  | num (q : Rat)
  | inf (neg : Bool)
  | nan
  deriving DecidableEq, Repr

/-- Case-insensitive "starts with" (the pattern is given in lowercase), used
for the `inf`/`nan` spellings accepted by `strtod`. -/
def startsWithCI : CStr → CStr → Bool
  | [], _ => true
  | _ :: _, [] => false
  | p :: ps, c :: cs => if c.toLower = p then startsWithCI ps cs else false

/-- Model of `std::stod(s)`: skip whitespace, take an optional sign, then a
decimal form (digits with an optional point and at least one digit overall,
and an optional well-formed exponent), or an `inf`/`nan` spelling;
`std::invalid_argument` (here `MalformedNumber`) when nothing matches. -/
def stod (s : CStr) : Except Err DVal :=
  let p := splitSign (skipWs s)
  let ipr := takeDigits p.2
  let fpr : CStr × CStr :=
    match ipr.2 with
    | c :: rest => if c = '.' then takeDigits rest else ([], ipr.2)
    | [] => ([], ipr.2)
  if ipr.1.isEmpty ∧ fpr.1.isEmpty then
    if startsWithCI strInf p.2 then .ok (.inf p.1)
    else if startsWithCI strNan p.2 then .ok .nan
    else .error .MalformedNumber
  else
    let e : Int :=
      match fpr.2 with
      | c :: rest =>
        if c = 'e' ∨ c = 'E' then
          let ep := splitSign rest
          let ed := takeDigits ep.2
          if ed.1.isEmpty then 0
          else if ep.1 then -(digitsVal ed.1 : Int) else (digitsVal ed.1 : Int)
        else 0
      | [] => 0
    let mant : Rat := (digitsVal ipr.1 : Rat) + (digitsVal fpr.1 : Rat) / ((10 : Rat) ^ fpr.1.length)
    .ok (.num ((if p.1 then -mant else mant) * (10 : Rat) ^ e))

/-- A `std::filesystem::path` constructed from a string.  Path normalization
is not observable through any operation of the library other than rendering,
so the path is its constructor string. -/
structure FsPath where
  repr : CStr
  deriving DecidableEq, Repr

/-- The alternatives of the C++ `var` variant other than `ref<bool>`:
exactly the types `T` that occur both as `ref<T>` and as `ref_opt<T>`. -/
inductive PTag where
  | i32
  | u32
  | i64
  | u64
  | dbl
  | str
  | path
  deriving DecidableEq, Repr

/-- The Lean type stored by a slot of tag `t`.  Fixed-width integers are
carried as `Int`/`Nat` already reduced by the `static_cast` model, so the
plain mathematical equality of stored values matches C++ equality. -/
@[reducible] def PTag.type : PTag → Type
  | .i32 => Int
  | .u32 => Nat
  | .i64 => Int
  | .u64 => Nat
  | .dbl => DVal
  | .str => CStr
  | .path => FsPath

instance PTag.decEqType : (t : PTag) → DecidableEq t.type
  | .i32 => inferInstanceAs (DecidableEq Int)
  | .u32 => inferInstanceAs (DecidableEq Nat)
  | .i64 => inferInstanceAs (DecidableEq Int)
  | .u64 => inferInstanceAs (DecidableEq Nat)
  | .dbl => inferInstanceAs (DecidableEq DVal)
  | .str => inferInstanceAs (DecidableEq CStr)
  | .path => inferInstanceAs (DecidableEq FsPath)

/-- `T{}`: the value-initialized temporary used by the optional arm of
`detail::parse`. -/
def PTag.defaultVal : (t : PTag) → t.type
  | .i32 => (0 : Int)
  | .u32 => (0 : Nat)
  | .i64 => (0 : Int)
  | .u64 => (0 : Nat)
  | .dbl => .num 0
  | .str => []
  | .path => ⟨[]⟩

/-- The per-type coercion applied by `detail::parse` to a (non-null) token:
* `ref<std::string>`: assigned verbatim;
* `ref<std::filesystem::path>`: `std::filesystem::path(str)`;
* `ref<double>`: `std::stod`;
* the remaining arithmetic refs: `static_cast<T>(std::stol(str))`. -/
def PTag.coerce : (t : PTag) → CStr → Except Err t.type
  | .str, s => .ok s
  | .path, s => .ok ⟨s⟩
  | .dbl, s => stod s
  | .i32, s => (stol s).map toI32
  | .u32, s => (stol s).map toU32
  | .i64, s => (stol s).map toI64
  | .u64, s => (stol s).map toU64

/-- The C++ `var` variant together with the contents of the slot it
references.  The binding aliases caller storage; the embedding threads the
stored value through the state instead.  `vBool` is `ref<bool>`, `plain t`
is `ref<T>`, `opt t` is `ref<std::optional<T>>` (note: there is no
`ref_opt<bool>` alternative in the source variant). -/
inductive Value where
  | vBool (x : Bool)
  | plain (t : PTag) (x : t.type)
  | opt (t : PTag) (x : Option t.type)

instance : DecidableEq Value := fun a b =>
  match a, b with
  | .vBool x, .vBool y =>
    if h : x = y then isTrue (by rw [h]) else isFalse (fun hc => h (Value.vBool.inj hc))
  | .plain t x, .plain u y =>
    if h : t = u then by
      subst h
      exact if h2 : x = y then isTrue (by rw [h2])
        else isFalse (fun hc => h2 (eq_of_heq (Value.plain.inj hc).2))
    else isFalse (fun hc => h (Value.plain.inj hc).1)
  | .opt t x, .opt u y =>
    if h : t = u then by
      subst h
      exact if h2 : x = y then isTrue (by rw [h2])
        else isFalse (fun hc => h2 (eq_of_heq (Value.opt.inj hc).2))
    else isFalse (fun hc => h (Value.opt.inj hc).1)
  | .vBool _, .plain _ _ => isFalse (fun hc => Value.noConfusion hc)
  | .vBool _, .opt _ _ => isFalse (fun hc => Value.noConfusion hc)
  | .plain _ _, .vBool _ => isFalse (fun hc => Value.noConfusion hc)
  | .plain _ _, .opt _ _ => isFalse (fun hc => Value.noConfusion hc)
  | .opt _ _, .vBool _ => isFalse (fun hc => Value.noConfusion hc)
  | .opt _ _, .plain _ _ => isFalse (fun hc => Value.noConfusion hc)

/-- `argz::detail::parse(const char* c, var& v)`: a `NULL` token is a no-op;
otherwise the token is coerced according to the alternative held by `v`:
* `ref<bool>`: `str == "true" ? true : false`;
* `ref<T>`: the per-type coercion `PTag.coerce`;
* `ref_opt<T>`: the C++ recurses into itself on a value-initialized
  temporary `ref<T>` — which immediately dispatches to the arm for `T`,
  i.e. `PTag.coerce` — and `emplace`s the temporary into the optional.
The result is the new slot contents; a thrown exception is `.error` (the
C++ slot is then left with its prior contents, see `coerceInPlace`). -/
def detail_parse (c : Option CStr) (v : Value) : Except Err Value :=
  match c with
  | none => .ok v
  | some s =>
    match v with
    | .vBool _ => .ok (.vBool (if s = strTrue then true else false))
    | .plain t _ => (t.coerce s).map (fun x => .plain t x)
    | .opt t _ => (t.coerce s).map (fun x => .opt t (some x))

/-- The contents of the bound C++ slot after `detail::parse(c, v)` returns
or throws: on an exception the assignment never happened and the slot keeps
its previous value. -/
def coerceInPlace (c : Option CStr) (v : Value) : Value :=
  match detail_parse c v with
  | .ok v2 => v2
  | .error _ => v

/-- `argz::ids_t`: long identifier and single-character alias
(`'\0'`, i.e. `Char.ofNat 0`, when absent; the field is `alias` in the
source, renamed `aliasCh` because `alias` is a Lean keyword). -/
structure Ids where
  id : CStr := []
  aliasCh : Char := Char.ofNat 0
  deriving DecidableEq, Repr

/-- `argz::arg_t`: identifiers, the binding (with the current contents of
the slot it aliases), and the help text. -/
structure Arg where
  ids : Ids
  value : Value
  help : CStr := []
  deriving DecidableEq

/-- `argz::about`. -/
structure About where
  description : CStr := []
  version : CStr := []
  print_help_when_no_options : Bool := true
  printed_help : Bool := false
  printed_version : Bool := false
  deriving DecidableEq, Repr

/-- One burst of text written to `std::cout`: the whole help screen printed
by `argz::help`, or the `"Version: ..."` line of the version branch.  The
text itself is not modelled (no claim inspects it). -/
inductive OutEvent where
  | helpOut
  | versionOut
  deriving DecidableEq, Repr

/-- The state threaded through a `parse` call: the run context, the option
table together with the contents of the caller slots its bindings alias,
and the output written so far. -/
structure ParseState where
  about : About
  opts : List Arg
  out : List OutEvent
  deriving DecidableEq

/-- `argz::help(about&, opts)`: sets `printed_help` and writes the help
screen to `std::cout`. -/
def helpFn (st : ParseState) : ParseState :=
  { st with
    about := { st.about with printed_help := true }
    out := st.out ++ [.helpOut] }

/-- The `"v" / "version"` branch of the scanner: writes the version line and
sets `printed_version`. -/
def versionFn (st : ParseState) : ParseState :=
  { st with
    about := { st.about with printed_version := true }
    out := st.out ++ [.versionOut] }

/-- The scanner's lambda `get_id(char alias)`: the long id of the first
option whose alias matches, or the empty string. -/
def get_id (opts : List Arg) (c : Char) : CStr :=
  match opts with
  | [] => []
  | a :: rest => if a.ids.aliasCh = c then a.ids.id else get_id rest c

/-- `*flag != '-'` guard plus the dash stripping of the scan loop: `none`
when the token does not start with `'-'` (the `throw "Expected '-'"` case),
otherwise the token with one leading dash removed, and a second one removed
when present. -/
def stripDashes : CStr → Option CStr
  | [] => none
  | c :: rest =>
    if c = '-' then
      some (match rest with
        | '-' :: r => r
        | _ => rest)
    else none

/-- Does the token take the scanner's help branch (`"h"`/`"help"` after
dash stripping)?  Independent of the option table. -/
def isHelpTok (tok : CStr) : Bool :=
  match stripDashes tok with
  | some t => decide (t = ['h'] ∨ t = strHelp)
  | none => false

/-- Outcome of the per-token part of the scan-loop body that precedes the
option dispatch: throw (`err`), print help and `continue` (`hlp`), print the
version and `continue` (`ver`), `break` (`brk`), or fall through to the
option loop with the resolved identifier (`go`). -/
inductive StepClass where
  | err (e : Err)
  | hlp
  | ver
  | brk
  | go (s : CStr)
  deriving DecidableEq, Repr

/-- The scan-loop body up to the option dispatch, in source order:
`*flag != '-'` check, dash stripping, the `"h"`/`"help"` branch, the
`"v"`/`"version"` branch, single-character alias resolution via `get_id`
(throwing `UnknownAlias` when it yields the empty string), and the
`if (str.empty()) break;` guard. -/
def classify (opts : List Arg) (flag : CStr) : StepClass :=
  match stripDashes flag with
  | none => .err .ExpectedDash
  | some t =>
    if t = ['h'] ∨ t = strHelp then .hlp
    else if t = ['v'] ∨ t = strVersion then .ver
    else
      match t with
      | [] => .brk
      | [a0] =>
        let s := get_id opts a0
        if s = [] then .err .UnknownAlias else .go s
      | _ => .go t

/-- The scanner's inner loop `for (auto& [ids, v, h] : opts)`: every option
whose `ids.id` equals the resolved identifier is processed (the C++ loop has
no `break`): a `ref<bool>` binding is set to `true`; any other binding
consumes the next token — `detail::parse(argv[++i], v)` — advancing `i` once
per such match.  Returns the updated table and final `i`, or the first
exception thrown. -/
def dispatch (tokens : List CStr) (s : CStr) : List Arg → Nat → Except Err (List Arg × Nat)
  | [], i => .ok ([], i)
  | a :: rest, i =>
    if a.ids.id = s then
      match a.value with
      | .vBool _ =>
        match dispatch tokens s rest i with
        | .ok p => .ok ({ a with value := .vBool true } :: p.1, p.2)
        | .error e => .error e
      | v =>
        match detail_parse (tokens.get? (i + 1)) v with
        | .error e => .error e
        | .ok v2 =>
          match dispatch tokens s rest (i + 1) with
          | .ok p => .ok ({ a with value := v2 } :: p.1, p.2)
          | .error e => .error e
    else
      match dispatch tokens s rest i with
      | .ok p => .ok (a :: p.1, p.2)
      | .error e => .error e

/-- The scan loop `for (int_t i = 1; i < argc; ++i) { ... }` of
`argz::parse`, together with the number of loop-body iterations executed
(the second component — instrumentation only, it influences nothing).
`fuel` is an upper bound on the remaining iterations making the recursion
structural; `parse` supplies `tokens.length`, which is sufficient because
every iteration advances `i` by at least one (`scanAux_fuel_congr` below
shows any sufficient fuel gives the same result, i.e. the loop always
terminates through its own exit conditions). -/
def scanAux (tokens : List CStr) : Nat → Nat → ParseState → Except Err ParseState × Nat
  | 0, _, st => (.ok st, 0)
  | fuel + 1, i, st =>
    if h : i < tokens.length then
      match classify st.opts (tokens.get ⟨i, h⟩) with
      | .err e => (.error e, 1)
      | .brk => (.ok st, 1)
      | .hlp =>
        let p := scanAux tokens fuel (i + 1) (helpFn st)
        (p.1, p.2 + 1)
      | .ver =>
        let p := scanAux tokens fuel (i + 1) (versionFn st)
        (p.1, p.2 + 1)
      | .go s =>
        match dispatch tokens s st.opts i with
        | .error e => (.error e, 1)
        | .ok q =>
          let p := scanAux tokens fuel (q.2 + 1) { st with opts := q.1 }
          (p.1, p.2 + 1)
    else (.ok st, 0)

/-- `argz::parse(about&, options&, argc, argv)` with `argc = tokens.length`:
the `argc == 1` early path (help when `print_help_when_no_options`, else
nothing), then the scan loop from index 1.  Returns the final state (or the
thrown exception) and the number of scan-loop iterations executed. -/
def parse (ab : About) (opts : List Arg) (tokens : List CStr) :
    Except Err ParseState × Nat :=
  if tokens.length = 1 then
    if ab.print_help_when_no_options then (.ok (helpFn ⟨ab, opts, []⟩), 0)
    else (.ok ⟨ab, opts, []⟩, 0)
  else
    scanAux tokens tokens.length 1 ⟨ab, opts, []⟩

/-- Wrap the value of a plain slot as the corresponding present optional
slot (what the `ref_opt<T>` arm of `detail::parse` does with the temporary
produced by the plain coercion). -/
def Value.asPresent : Value → Value
  | .plain t x => .opt t (some x)
  | v => v

/-- No decimal digit occurs anywhere in the token. -/
def noDigits (s : CStr) : Bool := s.all (fun c => !c.isDigit)

/-- A token that is rejected by both the `std::stol` and the `std::stod`
model: it contains no decimal digit and, after whitespace and sign, does not
start with an `inf`/`nan` spelling. -/
def nonNumeric (s : CStr) : Bool :=
  noDigits s
    && !(startsWithCI strInf (splitSign (skipWs s)).2)
    && !(startsWithCI strNan (splitSign (skipWs s)).2)

/-! ## Helper lemmas -/

theorem get_id_eq_nil (c : Char) :
    ∀ opts : List Arg, (∀ a ∈ opts, a.ids.aliasCh ≠ c) → get_id opts c = []
  | [], _ => rfl
  | a :: rest, h => by
    have ha : a.ids.aliasCh ≠ c := h a (List.mem_cons_self a rest)
    simp only [get_id, if_neg ha]
    exact get_id_eq_nil c rest (fun b hb => h b (List.mem_cons_of_mem a hb))

theorem get_id_first (c : Char) (a : Arg) (post : List Arg) :
    ∀ pre : List Arg, (∀ b ∈ pre, b.ids.aliasCh ≠ c) → a.ids.aliasCh = c →
      get_id (pre ++ a :: post) c = a.ids.id
  | [], _, ha => by simp [get_id, ha]
  | b :: pre, h, ha => by
    have hb : b.ids.aliasCh ≠ c := h b (List.mem_cons_self b pre)
    simp only [List.cons_append, get_id, if_neg hb]
    exact get_id_first c a post pre (fun x hx => h x (List.mem_cons_of_mem b hx)) ha

theorem dispatch_nomatch (tokens : List CStr) (s : CStr) :
    ∀ (opts : List Arg) (i : Nat), (∀ a ∈ opts, a.ids.id ≠ s) →
      dispatch tokens s opts i = .ok (opts, i)
  | [], _, _ => rfl
  | a :: rest, i, h => by
    have ha : a.ids.id ≠ s := h a (List.mem_cons_self a rest)
    simp only [dispatch, if_neg ha]
    rw [dispatch_nomatch tokens s rest i (fun b hb => h b (List.mem_cons_of_mem a hb))]

theorem dispatch_le (tokens : List CStr) (s : CStr) :
    ∀ (opts : List Arg) (i : Nat) (q : List Arg × Nat),
      dispatch tokens s opts i = .ok q → i ≤ q.2 := by
  intro opts
  induction opts with
  | nil =>
    intro i q h
    simp only [dispatch, Except.ok.injEq] at h
    rw [← h]
  | cons a rest ih =>
    intro i q h
    simp only [dispatch] at h
    split at h
    · split at h
      · split at h
        · rename_i p hd
          simp only [Except.ok.injEq] at h
          subst h
          exact ih i p hd
        · exact absurd h (by simp)
      · split at h
        · exact absurd h (by simp)
        · split at h
          · rename_i p hd
            simp only [Except.ok.injEq] at h
            subst h
            exact Nat.le_of_succ_le (ih (i + 1) p hd)
          · exact absurd h (by simp)
    · split at h
      · rename_i p hd
        simp only [Except.ok.injEq] at h
        subst h
        exact ih i p hd
      · exact absurd h (by simp)

theorem noDigits_cons {c : Char} {r : CStr} (h : noDigits (c :: r) = true) :
    c.isDigit = false ∧ noDigits r = true := by
  simp only [noDigits, List.all_cons, Bool.and_eq_true, Bool.not_eq_true'] at h
  exact ⟨h.1, h.2⟩

theorem noDigits_skipWs : ∀ s : CStr, noDigits s = true → noDigits (skipWs s) = true
  | [], h => h
  | c :: r, h => by
    obtain ⟨h1, h2⟩ := noDigits_cons h
    simp only [skipWs]
    split
    · exact noDigits_skipWs r h2
    · exact h

theorem noDigits_splitSign (s : CStr) (h : noDigits s = true) :
    noDigits (splitSign s).2 = true := by
  cases s with
  | nil => exact h
  | cons c r =>
    obtain ⟨_, h2⟩ := noDigits_cons h
    simp only [splitSign]
    split
    · exact h2
    · split
      · exact h2
      · exact h

theorem takeDigits_none (s : CStr) (h : noDigits s = true) : takeDigits s = ([], s) := by
  cases s with
  | nil => rfl
  | cons c r =>
    obtain ⟨h1, _⟩ := noDigits_cons h
    simp [takeDigits, h1]

theorem stol_nonNumeric (s : CStr) (h : noDigits s = true) :
    stol s = .error .MalformedNumber := by
  have h2 : noDigits (splitSign (skipWs s)).2 = true :=
    noDigits_splitSign _ (noDigits_skipWs s h)
  simp [stol, takeDigits_none _ h2]

theorem stod_nonNumeric (s : CStr) (h : nonNumeric s = true) :
    stod s = .error .MalformedNumber := by
  simp only [nonNumeric, Bool.and_eq_true, Bool.not_eq_true'] at h
  obtain ⟨⟨hnd, hinf⟩, hnan⟩ := h
  have h2 : noDigits (splitSign (skipWs s)).2 = true :=
    noDigits_splitSign _ (noDigits_skipWs s hnd)
  have htd : takeDigits (splitSign (skipWs s)).2 = ([], (splitSign (skipWs s)).2) :=
    takeDigits_none _ h2
  simp only [stod, htd]
  cases hs2 : (splitSign (skipWs s)).2 with
  | nil =>
    rw [hs2] at hinf hnan
    simp [hinf, hnan]
  | cons c r =>
    rw [hs2] at h2 hinf hnan
    obtain ⟨hc, hr⟩ := noDigits_cons h2
    by_cases hdot : c = '.'
    · subst hdot
      simp [takeDigits_none r hr, hinf, hnan]
    · simp [hdot, hinf, hnan]

theorem scanAux_count_le (tokens : List CStr) :
    ∀ (fuel i : Nat) (st : ParseState), (scanAux tokens fuel i st).2 ≤ tokens.length - i := by
  intro fuel
  induction fuel with
  | zero => intro i st; simp [scanAux]
  | succ f ih =>
    intro i st
    simp only [scanAux]
    split
    · rename_i h
      split
      · simp only []
        omega
      · simp only []
        omega
      · simp only []
        have := ih (i + 1) (helpFn st)
        omega
      · simp only []
        have := ih (i + 1) (versionFn st)
        omega
      · rename_i s hcg
        split
        · simp only []
          omega
        · rename_i q hd
          simp only []
          have hle := dispatch_le tokens s st.opts i q hd
          have := ih (q.2 + 1) { st with opts := q.1 }
          omega
    · simp

theorem scanAux_fuel_congr (tokens : List CStr) :
    ∀ (f1 f2 i : Nat) (st : ParseState),
      tokens.length - i ≤ f1 → tokens.length - i ≤ f2 →
      scanAux tokens f1 i st = scanAux tokens f2 i st := by
  intro f1
  induction f1 with
  | zero =>
    intro f2 i st h1 h2
    have hge : ¬i < tokens.length := by omega
    cases f2 with
    | zero => rfl
    | succ g => simp [scanAux, hge]
  | succ f ihf =>
    intro f2 i st h1 h2
    by_cases h : i < tokens.length
    · cases f2 with
      | zero => omega
      | succ g =>
        simp only [scanAux]
        rw [dif_pos h, dif_pos h]
        split
        · rfl
        · rfl
        · rw [ihf g (i + 1) (helpFn st) (by omega) (by omega)]
        · rw [ihf g (i + 1) (versionFn st) (by omega) (by omega)]
        · rename_i s hcg
          split
          · rfl
          · rename_i q hd
            have hle := dispatch_le tokens s st.opts i q hd
            rw [ihf g (q.2 + 1) { st with opts := q.1 } (by omega) (by omega)]
    · cases f2 with
      | zero => simp [scanAux, h]
      | succ g => simp [scanAux, h]

theorem classify_hlp (opts : List Arg) (flag : CStr)
    (h : classify opts flag = .hlp) : isHelpTok flag = true := by
  unfold classify at h
  split at h
  · exact absurd h (by simp)
  · rename_i t hst
    have hgoal : isHelpTok flag = decide (t = ['h'] ∨ t = strHelp) := by
      simp [isHelpTok, hst]
    rw [hgoal]
    by_cases hc : t = ['h'] ∨ t = strHelp
    · simp [hc]
    · rw [if_neg hc] at h
      exfalso
      split at h
      · exact absurd h (by simp)
      · split at h
        · exact absurd h (by simp)
        · dsimp only at h
          split at h
          · exact absurd h (by simp)
          · exact absurd h (by simp)
        · exact absurd h (by simp)

theorem scanAux_no_help (tokens : List CStr)
    (hnh : ∀ tok ∈ tokens, isHelpTok tok = false) :
    ∀ (fuel i : Nat) (st st2 : ParseState),
      (scanAux tokens fuel i st).1 = .ok st2 →
      st2.about.printed_help = st.about.printed_help
      ∧ (OutEvent.helpOut ∈ st2.out ↔ OutEvent.helpOut ∈ st.out) := by
  intro fuel
  induction fuel with
  | zero =>
    intro i st st2 h
    simp only [scanAux] at h
    have h2 : st = st2 := by simpa using h
    subst h2
    exact ⟨rfl, Iff.rfl⟩
  | succ f ih =>
    intro i st st2 h
    simp only [scanAux] at h
    split at h
    · rename_i hlt
      split at h
      · exact absurd h (by simp)
      · have h2 : st = st2 := by simpa using h
        subst h2
        exact ⟨rfl, Iff.rfl⟩
      · rename_i heq
        have hmem : tokens.get ⟨i, hlt⟩ ∈ tokens := tokens.get_mem _ _
        have hf : isHelpTok (tokens.get ⟨i, hlt⟩) = false := hnh _ hmem
        have ht : isHelpTok (tokens.get ⟨i, hlt⟩) = true := classify_hlp st.opts _ heq
        rw [hf] at ht
        exact absurd ht (by simp)
      · have h2 : (scanAux tokens f (i + 1) (versionFn st)).1 = .ok st2 := by
          simpa using h
        obtain ⟨ha, hb⟩ := ih (i + 1) (versionFn st) st2 h2
        constructor
        · exact ha
        · rw [hb]
          simp [versionFn]
      · rename_i s hcg
        split at h
        · exact absurd h (by simp)
        · rename_i q hd
          have h2 : (scanAux tokens f (q.2 + 1) { st with opts := q.1 }).1 = .ok st2 := by
            simpa using h
          exact ih (q.2 + 1) { st with opts := q.1 } st2 h2
    · have h2 : st = st2 := by simpa using h
      subst h2
      exact ⟨rfl, Iff.rfl⟩

/-! ## Claim theorems -/

/-- Claim C6: coercing a token into a boolean binding stores `true` exactly
when the token is the literal `"true"` (case-sensitive), and stores `false`
for every other token. -/
theorem c6_bool_coercion_literal (s : CStr) (x : Bool) :
    (detail_parse (some s) (.vBool x) = .ok (.vBool true) ↔ s = strTrue)
    ∧ (detail_parse (some s) (.vBool x) = .ok (.vBool false) ↔ s ≠ strTrue) := by
  by_cases hs : s = strTrue <;> simp [detail_parse, hs]

/-- Claim C2 (code bug evidence): with a declared non-boolean option
`--count` and the flag as the final token, `parse` raises no error at all —
in particular no missing-value error exists in the code.  The flag's match
reads `argv[argc]` (`NULL` for a `main`-style vector, modelled as `none`),
`detail::parse` ignores a null token, and the call completes with the bound
slot unchanged. -/
theorem c2_flag_last_completes_silently :
    parse ⟨[], [], true, false, false⟩
        [⟨⟨['c', 'o', 'u', 'n', 't'], 'c'⟩, .plain .i64 0, []⟩]
        [['p'], ['-', '-', 'c', 'o', 'u', 'n', 't']]
      = (.ok ⟨⟨[], [], true, false, false⟩,
          [⟨⟨['c', 'o', 'u', 'n', 't'], 'c'⟩, .plain .i64 0, []⟩], []⟩, 1) := by
  decide

/-- Claim C1 (counterexample): with two options sharing the long id `dup`
(both `int64` slots initialized to `0`) and tokens `prog --dup 7 9`, the
scan does *not* leave the later option unaffected and does *not* consume
exactly one value token: the inner option loop has no `break`, so the first
option binds `7` and the second option binds the following token `9`. -/
theorem c1_duplicate_id_counterexample :
    (parse ⟨[], [], true, false, false⟩
        [⟨⟨['d', 'u', 'p'], 'a'⟩, .plain .i64 0, []⟩,
          ⟨⟨['d', 'u', 'p'], 'b'⟩, .plain .i64 0, []⟩]
        [['p'], ['-', '-', 'd', 'u', 'p'], ['7'], ['9']]).1
      = .ok ⟨⟨[], [], true, false, false⟩,
          [⟨⟨['d', 'u', 'p'], 'a'⟩, .plain .i64 7, []⟩,
            ⟨⟨['d', 'u', 'p'], 'b'⟩, .plain .i64 9, []⟩], []⟩
    ∧ (Value.plain .i64 9 ≠ Value.plain .i64 0) := by
  exact ⟨by decide, by decide⟩

/-- Claim C3: a token whose dash-stripped text is empty (`"-"` or `"--"`,
the only tokens that pass the `'-'` check and strip to the empty string, so
that identifier resolution yields an empty string without entering the alias
branch) makes the scan loop `break` at that iteration: no error, the state
is returned exactly as it was, and no later token is processed (one single
loop iteration happens regardless of what follows). -/
theorem c3_empty_resolution_early_exit (tokens : List CStr) (st : ParseState)
    (i fuel : Nat) (t : CStr) (htok : tokens.get? i = some t)
    (ht : t = ['-'] ∨ t = ['-', '-']) (hfuel : 0 < fuel) :
    scanAux tokens fuel i st = (.ok st, 1) := by
  obtain ⟨hlt, hget⟩ := List.get?_eq_some.mp htok
  obtain ⟨f, rfl⟩ : ∃ f, fuel = f + 1 := ⟨fuel - 1, by omega⟩
  have hc : classify st.opts tokens[i] = .brk := by
    rw [show (tokens[i] : CStr) = t from hget]
    rcases ht with h | h <;> subst h <;> rfl
  simp [scanAux, hlt, hc]

/-- Claim C4: coercing a token into an optional-of-T binding succeeds
exactly when the plain T coercion does (whatever either slot held before)
and stores `present` of exactly the plain coercion's value; and, at the
scan level, an optional slot that is `absent` before its flag is scanned is
`present(v)` — `v` the plain-coerced value — once its flag+value pair has
been processed. -/
theorem c4_optional_coercion (t : PTag) (s x : CStr) (o : Option t.type)
    (d : t.type) (ab : About) (idc prog ht : CStr) (al : Char) (v : t.type)
    (hlen : 2 ≤ idc.length) (hh : idc ≠ strHelp) (hv : idc ≠ strVersion)
    (hco : t.coerce x = .ok v) :
    detail_parse (some s) (.opt t o)
      = (detail_parse (some s) (.plain t d)).map Value.asPresent
    ∧ (parse ab [⟨⟨idc, al⟩, .opt t none, ht⟩] [prog, '-' :: '-' :: idc, x]).1
      = .ok ⟨ab, [⟨⟨idc, al⟩, .opt t (some v), ht⟩], []⟩ := by
  constructor
  · cases hr : t.coerce s <;> simp [detail_parse, hr, Value.asPresent, Except.map]
  · rcases idc with _ | ⟨a, _ | ⟨b, tl⟩⟩
    · simp at hlen
    · simp at hlen
    · have hc : classify [⟨⟨a :: b :: tl, al⟩, .opt t none, ht⟩]
          ('-' :: '-' :: a :: b :: tl) = .go (a :: b :: tl) := by
        simp [classify, stripDashes, hh, hv]
      have hd : dispatch [prog, '-' :: '-' :: a :: b :: tl, x] (a :: b :: tl)
          [⟨⟨a :: b :: tl, al⟩, .opt t none, ht⟩] 1
          = .ok ([⟨⟨a :: b :: tl, al⟩, .opt t (some v), ht⟩], 2) := by
        simp [dispatch, detail_parse, hco, Except.map]
      simp [parse, scanAux, hc, hd]

/-- Witness for C4 at a concrete input: an optional `int32` option `--num`
bound from token `"42"`. -/
theorem c4_optional_coercion_witness :
    2 ≤ (['n', 'u', 'm'] : CStr).length
    ∧ (['n', 'u', 'm'] : CStr) ≠ strHelp
    ∧ (['n', 'u', 'm'] : CStr) ≠ strVersion
    ∧ PTag.coerce .i32 ['4', '2'] = .ok (42 : Int)
    ∧ (detail_parse (some ['7']) (.opt .i32 none)
        = (detail_parse (some ['7']) (.plain .i32 0)).map Value.asPresent
      ∧ (parse ⟨[], [], true, false, false⟩
            [⟨⟨['n', 'u', 'm'], 'n'⟩, .opt .i32 none, []⟩]
            [['p'], ['-', '-', 'n', 'u', 'm'], ['4', '2']]).1
        = .ok ⟨⟨[], [], true, false, false⟩,
            [⟨⟨['n', 'u', 'm'], 'n'⟩, .opt .i32 (some 42), []⟩], []⟩) :=
  ⟨by decide, by decide, by decide, by decide,
    c4_optional_coercion .i32 ['7'] ['4', '2'] none 0 ⟨[], [], true, false, false⟩
      ['n', 'u', 'm'] ['p'] [] 'n' 42 (by decide) (by decide) (by decide) (by decide)⟩

/-- Claim C7: a token whose dash-stripped text is a single character `c`
other than `'h'` and `'v'` that is the alias of no declared option makes the
scan fail with the unknown-alias error; and when options do share an alias,
`get_id` resolves it to the long id of the first matching option in table
order. -/
theorem c7_unknown_alias (tokens : List CStr) (st : ParseState) (i fuel : Nat)
    (c c2 : Char) (flag : CStr) (a2 : Arg) (pre post : List Arg)
    (htok : tokens.get? i = some flag)
    (hflag : (flag = ['-', c] ∧ c ≠ '-') ∨ flag = ['-', '-', c])
    (hh : c ≠ 'h') (hv : c ≠ 'v')
    (hal : ∀ a ∈ st.opts, a.ids.aliasCh ≠ c)
    (hfuel : 0 < fuel)
    (hpre : ∀ b ∈ pre, b.ids.aliasCh ≠ c2) (ha2 : a2.ids.aliasCh = c2) :
    scanAux tokens fuel i st = (.error .UnknownAlias, 1)
    ∧ get_id (pre ++ a2 :: post) c2 = a2.ids.id := by
  obtain ⟨hlt, hget⟩ := List.get?_eq_some.mp htok
  obtain ⟨f, rfl⟩ : ∃ f, fuel = f + 1 := ⟨fuel - 1, by omega⟩
  have hgid : get_id st.opts c = [] := get_id_eq_nil c st.opts hal
  constructor
  · have hc : classify st.opts tokens[i] = .err .UnknownAlias := by
      rw [show (tokens[i] : CStr) = flag from hget]
      rcases hflag with ⟨hf, hcd⟩ | hf
      · subst hf
        simp [classify, stripDashes, hcd, hh, hv, hgid, strHelp, strVersion]
      · subst hf
        simp [classify, stripDashes, hh, hv, hgid, strHelp, strVersion]
    simp [scanAux, hlt, hc]
  · exact get_id_first c2 a2 post pre hpre ha2

/-- Witness for C7 at a concrete input: `-x` with no declared alias `x`;
alias `z` declared twice resolves to the first option's id. -/
theorem c7_unknown_alias_witness :
    ([['p'], ['-', 'x']] : List CStr).get? 1 = some (['-', 'x'] : CStr)
    ∧ (((['-', 'x'] : CStr) = ['-', 'x'] ∧ 'x' ≠ '-') ∨ (['-', 'x'] : CStr) = ['-', '-', 'x'])
    ∧ 'x' ≠ 'h'
    ∧ 'x' ≠ 'v'
    ∧ (∀ a ∈ (⟨⟨[], [], true, false, false⟩, [], []⟩ : ParseState).opts, a.ids.aliasCh ≠ 'x')
    ∧ 0 < 2
    ∧ (∀ b ∈ ([] : List Arg), b.ids.aliasCh ≠ 'z')
    ∧ (⟨⟨['z', '1'], 'z'⟩, .vBool false, []⟩ : Arg).ids.aliasCh = 'z'
    ∧ (scanAux [['p'], ['-', 'x']] 2 1 ⟨⟨[], [], true, false, false⟩, [], []⟩
          = (.error .UnknownAlias, 1)
      ∧ get_id ([] ++ (⟨⟨['z', '1'], 'z'⟩, .vBool false, []⟩ : Arg)
            :: [⟨⟨['z', '2'], 'z'⟩, .vBool false, []⟩]) 'z'
          = (⟨⟨['z', '1'], 'z'⟩, .vBool false, []⟩ : Arg).ids.id) :=
  ⟨by decide, by decide, by decide, by decide, by decide, by decide, by decide, by decide,
    c7_unknown_alias [['p'], ['-', 'x']] ⟨⟨[], [], true, false, false⟩, [], []⟩ 1 2
      'x' 'z' ['-', 'x'] ⟨⟨['z', '1'], 'z'⟩, .vBool false, []⟩ []
      [⟨⟨['z', '2'], 'z'⟩, .vBool false, []⟩]
      (by decide) (by decide) (by decide) (by decide) (by decide) (by decide)
      (by decide) (by decide)⟩

/-- Claim C10: a flag token that dash-strips to an identifier declared by no
option (and is none of `h`/`help`/`v`/`version`, and is not a single
character) consumes no value token and is itself tolerated; consequently
`[prog, unknown-long-flag, value]` with a dash-less `value` fails with the
missing-dash error (`ExpectedFlagPrefix` in the spec's terms) on the value
token, while `[prog, unknown-long-flag]` completes without error and
without mutation. -/
theorem c10_unknown_long_flag (ab : About) (opts : List Arg)
    (prog uflag val s : CStr)
    (hs : stripDashes uflag = some s)
    (hlen : 2 ≤ s.length)
    (hh : s ≠ strHelp) (hv : s ≠ strVersion)
    (hno : ∀ a ∈ opts, a.ids.id ≠ s)
    (hval : stripDashes val = none) :
    (parse ab opts [prog, uflag, val]).1 = .error .ExpectedDash
    ∧ parse ab opts [prog, uflag] = (.ok ⟨ab, opts, []⟩, 1) := by
  have hc : classify opts uflag = .go s := by
    rcases s with _ | ⟨a, _ | ⟨b, tl⟩⟩
    · simp at hlen
    · simp at hlen
    · simp [classify, hs, hh, hv]
  have hcv : classify opts val = .err .ExpectedDash := by
    simp [classify, hval]
  constructor
  · have hd : dispatch [prog, uflag, val] s opts 1 = .ok (opts, 1) :=
      dispatch_nomatch [prog, uflag, val] s opts 1 hno
    simp [parse, scanAux, hc, hd, hcv]
  · have hd : dispatch [prog, uflag] s opts 1 = .ok (opts, 1) :=
      dispatch_nomatch [prog, uflag] s opts 1 hno
    simp [parse, scanAux, hc, hd]

/-- Witness for C10 at a concrete input: `--zz` undeclared, value `42`. -/
theorem c10_unknown_long_flag_witness :
    stripDashes ['-', '-', 'z', 'z'] = some (['z', 'z'] : CStr)
    ∧ 2 ≤ (['z', 'z'] : CStr).length
    ∧ (['z', 'z'] : CStr) ≠ strHelp
    ∧ (['z', 'z'] : CStr) ≠ strVersion
    ∧ (∀ a ∈ ([] : List Arg), a.ids.id ≠ ['z', 'z'])
    ∧ stripDashes ['4', '2'] = none
    ∧ ((parse ⟨[], [], true, false, false⟩ []
          [['p'], ['-', '-', 'z', 'z'], ['4', '2']]).1 = .error .ExpectedDash
      ∧ parse ⟨[], [], true, false, false⟩ [] [['p'], ['-', '-', 'z', 'z']]
          = (.ok ⟨⟨[], [], true, false, false⟩, [], []⟩, 1)) :=
  ⟨by decide, by decide, by decide, by decide, by decide, by decide,
    c10_unknown_long_flag ⟨[], [], true, false, false⟩ [] ['p']
      ['-', '-', 'z', 'z'] ['4', '2'] ['z', 'z']
      (by decide) (by decide) (by decide) (by decide) (by decide) (by decide)⟩

/-- Claim C1 (amended): when two options share a long id, the scanner
reports no ambiguity and the first option in table order binds the value
token immediately after the flag — but the option loop has no `break`, so
the later option with the same long id is processed as well, consuming one
further token: the first option receives the first value token and the
second option the next one. -/
theorem c1_duplicate_id_amended (ab : About) (idc x y prog h1t h2t : CStr)
    (c1 c2 : Char) (v1 v2 nx ny : Int)
    (hlen : 2 ≤ idc.length) (hh : idc ≠ strHelp) (hv : idc ≠ strVersion)
    (hx : stol x = .ok nx) (hy : stol y = .ok ny) :
    (parse ab [⟨⟨idc, c1⟩, .plain .i64 v1, h1t⟩, ⟨⟨idc, c2⟩, .plain .i64 v2, h2t⟩]
        [prog, '-' :: '-' :: idc, x, y]).1
      = .ok ⟨ab, [⟨⟨idc, c1⟩, .plain .i64 nx, h1t⟩,
          ⟨⟨idc, c2⟩, .plain .i64 ny, h2t⟩], []⟩ := by
  rcases idc with _ | ⟨a, _ | ⟨b, tl⟩⟩
  · simp at hlen
  · simp at hlen
  · have hc : classify [⟨⟨a :: b :: tl, c1⟩, .plain .i64 v1, h1t⟩,
        ⟨⟨a :: b :: tl, c2⟩, .plain .i64 v2, h2t⟩]
        ('-' :: '-' :: a :: b :: tl) = .go (a :: b :: tl) := by
      simp [classify, stripDashes, hh, hv]
    have hd : dispatch [prog, '-' :: '-' :: a :: b :: tl, x, y] (a :: b :: tl)
        [⟨⟨a :: b :: tl, c1⟩, .plain .i64 v1, h1t⟩,
          ⟨⟨a :: b :: tl, c2⟩, .plain .i64 v2, h2t⟩] 1
        = .ok ([⟨⟨a :: b :: tl, c1⟩, .plain .i64 nx, h1t⟩,
            ⟨⟨a :: b :: tl, c2⟩, .plain .i64 ny, h2t⟩], 3) := by
      simp [dispatch, detail_parse, PTag.coerce, hx, hy, Except.map, toI64]
    simp [parse, scanAux, hc, hd]

/-- Witness for C1's amended theorem at a concrete input: duplicate id
`dup`, value tokens `7` and `9`. -/
theorem c1_duplicate_id_amended_witness :
    2 ≤ (['d', 'u', 'p'] : CStr).length
    ∧ (['d', 'u', 'p'] : CStr) ≠ strHelp
    ∧ (['d', 'u', 'p'] : CStr) ≠ strVersion
    ∧ stol ['7'] = .ok (7 : Int)
    ∧ stol ['9'] = .ok (9 : Int)
    ∧ (parse ⟨[], [], true, false, false⟩
        [⟨⟨['d', 'u', 'p'], 'a'⟩, .plain .i64 1, []⟩,
          ⟨⟨['d', 'u', 'p'], 'b'⟩, .plain .i64 2, []⟩]
        [['p'], ['-', '-', 'd', 'u', 'p'], ['7'], ['9']]).1
      = .ok ⟨⟨[], [], true, false, false⟩,
          [⟨⟨['d', 'u', 'p'], 'a'⟩, .plain .i64 7, []⟩,
            ⟨⟨['d', 'u', 'p'], 'b'⟩, .plain .i64 9, []⟩], []⟩ :=
  ⟨by decide, by decide, by decide, by decide, by decide,
    c1_duplicate_id_amended ⟨[], [], true, false, false⟩ ['d', 'u', 'p']
      ['7'] ['9'] ['p'] [] [] 'a' 'b' 1 2 7 9
      (by decide) (by decide) (by decide) (by decide) (by decide)⟩

/-- Claim C5: coercing a non-numeric token (no decimal digit, no `inf`/`nan`
spelling) into any integer, unsigned or double binding — plain or optional —
fails with the malformed-number error, propagated as a thrown exception, and
the bound slot retains the value it had before the coercion. -/
theorem c5_malformed_number (t : PTag) (s : CStr) (x : t.type) (o : Option t.type)
    (ht1 : t ≠ .str) (ht2 : t ≠ .path) (hs : nonNumeric s = true) :
    detail_parse (some s) (.plain t x) = .error .MalformedNumber
    ∧ detail_parse (some s) (.opt t o) = .error .MalformedNumber
    ∧ coerceInPlace (some s) (.plain t x) = .plain t x
    ∧ coerceInPlace (some s) (.opt t o) = .opt t o := by
  have hnd : noDigits s = true := by
    simp only [nonNumeric, Bool.and_eq_true] at hs
    exact hs.1.1
  have h1 := stol_nonNumeric s hnd
  have h2 := stod_nonNumeric s hs
  cases t
  case str => exact absurd rfl ht1
  case path => exact absurd rfl ht2
  all_goals
    refine ⟨?_, ?_, ?_, ?_⟩ <;>
      simp [detail_parse, coerceInPlace, PTag.coerce, h1, h2, Except.map]

/-- Witness for C5 at a concrete input: token `"abc"` against an `int32`
slot holding `5`. -/
theorem c5_malformed_number_witness :
    (PTag.i32 ≠ PTag.str ∧ PTag.i32 ≠ PTag.path ∧ nonNumeric ['a', 'b', 'c'] = true)
    ∧ (detail_parse (some ['a', 'b', 'c']) (.plain .i32 5) = .error .MalformedNumber
      ∧ detail_parse (some ['a', 'b', 'c']) (.opt .i32 (some 5)) = .error .MalformedNumber
      ∧ coerceInPlace (some ['a', 'b', 'c']) (.plain .i32 5) = .plain .i32 5
      ∧ coerceInPlace (some ['a', 'b', 'c']) (.opt .i32 (some 5)) = .opt .i32 (some 5)) :=
  ⟨⟨by decide, by decide, by decide⟩,
    c5_malformed_number .i32 ['a', 'b', 'c'] 5 (some 5)
      (by decide) (by decide) (by decide)⟩

/-- Claim C9: for every finite token sequence and option table, `parse`
terminates, executing at most `tokens.length` scan-loop iterations (the
iteration count is the instrumented second component of the result), and the
loop reaches its own exit conditions: any two fuel bounds at least as large
as the number of remaining indices produce identical runs, so the structural
fuel is not what stops the scan.  Termination itself is by construction —
every embedded function is total. -/
theorem c9_terminates_within_token_count (tokens : List CStr) (ab : About)
    (opts : List Arg) (f1 f2 i : Nat) (st : ParseState)
    (h1 : tokens.length - i ≤ f1) (h2 : tokens.length - i ≤ f2) :
    (parse ab opts tokens).2 ≤ tokens.length
    ∧ scanAux tokens f1 i st = scanAux tokens f2 i st := by
  constructor
  · by_cases hl : tokens.length = 1
    · by_cases hp : ab.print_help_when_no_options = true <;>
        simp [parse, hl, hp]
    · calc (parse ab opts tokens).2
          = (scanAux tokens tokens.length 1 ⟨ab, opts, []⟩).2 := by
            simp [parse, hl]
        _ ≤ tokens.length - 1 := scanAux_count_le tokens tokens.length 1 _
        _ ≤ tokens.length := Nat.sub_le _ _
  · exact scanAux_fuel_congr tokens f1 f2 i st h1 h2

/-- Witness for C9 at a concrete input: two tokens, fuels 5 and 9. -/
theorem c9_terminates_within_token_count_witness :
    ((([['p'], ['-', 'h']] : List CStr).length - 1 ≤ 5)
      ∧ (([['p'], ['-', 'h']] : List CStr).length - 1 ≤ 9))
    ∧ ((parse ⟨[], [], true, false, false⟩ [] [['p'], ['-', 'h']]).2
        ≤ ([['p'], ['-', 'h']] : List CStr).length
      ∧ scanAux [['p'], ['-', 'h']] 5 1 ⟨⟨[], [], true, false, false⟩, [], []⟩
        = scanAux [['p'], ['-', 'h']] 9 1 ⟨⟨[], [], true, false, false⟩, [], []⟩) :=
  ⟨⟨by decide, by decide⟩,
    c9_terminates_within_token_count [['p'], ['-', 'h']] ⟨[], [], true, false, false⟩
      [] 5 9 1 ⟨⟨[], [], true, false, false⟩, [], []⟩ (by decide) (by decide)⟩

/-- Claim C8: on the one-element token sequence (program name only),
`parse` emits help and sets `printed_help` exactly when
`print_help_when_no_options` is set, and otherwise returns with no output,
no context-flag change and no slot mutation; and this is the only path that
auto-triggers help: any longer run containing no token that dash-strips to
`h`/`help` leaves `printed_help` unchanged and emits no help output. -/
theorem c8_help_iff_policy_on_lone_program_name (ab : About) (opts : List Arg)
    (prog : CStr) (tokens : List CStr) (st2 : ParseState)
    (hlen : 2 ≤ tokens.length)
    (hnh : ∀ tok ∈ tokens, isHelpTok tok = false)
    (hok : (parse ab opts tokens).1 = .ok st2) :
    parse ab opts [prog]
      = (if ab.print_help_when_no_options
          then (.ok ⟨{ ab with printed_help := true }, opts, [.helpOut]⟩, 0)
          else (.ok ⟨ab, opts, []⟩, 0))
    ∧ st2.about.printed_help = ab.printed_help
    ∧ OutEvent.helpOut ∉ st2.out := by
  refine ⟨?_, ?_⟩
  · by_cases hp : ab.print_help_when_no_options = true <;>
      simp [parse, helpFn, hp]
  · have hne : ¬tokens.length = 1 := by omega
    rw [parse, if_neg hne] at hok
    obtain ⟨h1, h2⟩ :=
      scanAux_no_help tokens hnh tokens.length 1 ⟨ab, opts, []⟩ st2 hok
    refine ⟨h1, fun hmem => ?_⟩
    simpa using h2.mp hmem

/-- Witness for C8 at a concrete input: a two-token run `[p, -v]` with no
help token, alongside the one-token behavior for the same context. -/
theorem c8_help_iff_policy_on_lone_program_name_witness :
    (2 ≤ ([['p'], ['-', 'v']] : List CStr).length
      ∧ (∀ tok ∈ ([['p'], ['-', 'v']] : List CStr), isHelpTok tok = false)
      ∧ (parse ⟨[], [], true, false, false⟩ [] [['p'], ['-', 'v']]).1
          = .ok ⟨⟨[], [], true, false, true⟩, [], [.versionOut]⟩)
    ∧ (parse ⟨[], [], true, false, false⟩ [] [['p']]
        = (if (⟨[], [], true, false, false⟩ : About).print_help_when_no_options
            then (.ok ⟨{ (⟨[], [], true, false, false⟩ : About) with printed_help := true },
                [], [.helpOut]⟩, 0)
            else (.ok ⟨⟨[], [], true, false, false⟩, [], []⟩, 0))
      ∧ (⟨⟨[], [], true, false, true⟩, [], [.versionOut]⟩ : ParseState).about.printed_help
          = (⟨[], [], true, false, false⟩ : About).printed_help
      ∧ OutEvent.helpOut ∉ (⟨⟨[], [], true, false, true⟩, [], [.versionOut]⟩ : ParseState).out) :=
  ⟨⟨by decide, by decide, by decide⟩,
    c8_help_iff_policy_on_lone_program_name ⟨[], [], true, false, false⟩ [] ['p']
      [['p'], ['-', 'v']] ⟨⟨[], [], true, false, true⟩, [], [.versionOut]⟩
      (by decide) (by decide) (by decide)⟩

/-- Witness for C3 at a concrete input: token 1 of `[p, -, x]` is `"-"`. -/
theorem c3_empty_resolution_early_exit_witness :
    ([['p'], ['-'], ['x']] : List CStr).get? 1 = some (['-'] : CStr)
    ∧ ((['-'] : CStr) = ['-'] ∨ (['-'] : CStr) = ['-', '-'])
    ∧ 0 < 3
    ∧ scanAux [['p'], ['-'], ['x']] 3 1 ⟨⟨[], [], true, false, false⟩, [], []⟩
        = (.ok ⟨⟨[], [], true, false, false⟩, [], []⟩, 1) :=
  ⟨by decide, by decide, by decide,
    c3_empty_resolution_early_exit [['p'], ['-'], ['x']]
      ⟨⟨[], [], true, false, false⟩, [], []⟩ 1 3 ['-']
      (by decide) (by decide) (by decide)⟩

end Argz
